import Mathlib

/-!
Verification of the planning-poker realtime room server.

The repository ships two implementations of the same realtime protocol:
the Go WebSocket server (servers/golang/main.go) and the Node WebSocket
server (servers/node, TypeScript).  Both keep an in-memory map of rooms,
each room holding a map from connection id to participant, a revealed
flag, an optional story and an optional last-round snapshot.  Inbound
messages are a {type, data} envelope; handlers mutate one room and fan a
message out to the live connections of the participants of that room.

The embedding below is a direct functional translation: Go maps become
association lists keyed by strings, pointer-valued fields become Option,
the JSON payload becomes an inductive value type, and each handler
becomes a function from server state and message fields to the new
server state paired with the list of sends it performs.
-/

namespace PlanningPoker

/-- A participant of a room: the Participant struct in main.go, the map
value in the Node RoomState.  Vote is a nullable string, paused defaults
to false. -/
structure Participant where
  id : String
  name : String
  vote : Option String
  paused : Bool
deriving Repr, DecidableEq

/-- The Story struct of main.go: title and link. -/
structure Story where
  title : String
  link : String
deriving Repr, DecidableEq

/-- The LastRound struct of main.go: a generated round id and a copied
array of the participants at reveal time. -/
structure LastRound where
  id : String
  participants : List Participant
deriving Repr, DecidableEq

/-- The RoomState of main.go (and the Node RoomState type): participants
keyed by connection id, the revealed flag, the nullable last round and
the nullable story. -/
structure RoomState where
  id : String
  participants : List (String × Participant)
  revealed : Bool
  lastRound : Option LastRound
  story : Option Story
deriving Repr, DecidableEq

/-! ### String-keyed maps as association lists

Go maps and JS Map objects are modelled as association lists without
duplicate keys.  Lookup returns the first binding, insertion overwrites
the first binding of the key or appends a new one, erasure removes the
bindings of the key. -/

/-- Map lookup: m[k]. -/
def lookupKey {α : Type} : List (String × α) → String → Option α
  | [], _ => none
  | e :: es, k => if e.1 == k then some e.2 else lookupKey es k

/-- Map assignment: m[k] = v. -/
def insertKey {α : Type} : List (String × α) → String → α → List (String × α)
  | [], k, v => [(k, v)]
  | e :: es, k, v => if e.1 == k then (k, v) :: es else e :: insertKey es k v

/-- Map deletion: delete(m, k). -/
def eraseKey {α : Type} (m : List (String × α)) (k : String) :
    List (String × α) :=
  m.filter (fun e => e.1 != k)

theorem lookupKey_cons {α : Type} (e : String × α) (m : List (String × α))
    (k : String) :
    lookupKey (e :: m) k = if e.1 = k then some e.2 else lookupKey m k := by
  by_cases h : e.1 = k <;> simp [lookupKey, h]

theorem lookupKey_insertKey_self {α : Type} (m : List (String × α))
    (k : String) (v : α) : lookupKey (insertKey m k v) k = some v := by
  induction m with
  | nil => simp [insertKey, lookupKey]
  | cons e m ih =>
    by_cases h : e.1 = k
    · simp [insertKey, h, lookupKey]
    · simp [insertKey, h, lookupKey_cons, ih]

theorem lookupKey_insertKey_ne {α : Type} (m : List (String × α))
    (k k' : String) (v : α) (h : k' ≠ k) :
    lookupKey (insertKey m k v) k' = lookupKey m k' := by
  induction m with
  | nil => simp [insertKey, lookupKey, Ne.symm h]
  | cons e m ih =>
    by_cases he : e.1 = k
    · simp [insertKey, he, lookupKey_cons, Ne.symm h]
    · simp [insertKey, he, lookupKey_cons, ih]

theorem insertKey_self_of_lookup {α : Type} (m : List (String × α))
    (k : String) (v : α) (h : lookupKey m k = some v) :
    insertKey m k v = m := by
  induction m with
  | nil => simp [lookupKey] at h
  | cons e m ih =>
    rw [lookupKey_cons] at h
    by_cases he : e.1 = k
    · rw [if_pos he] at h
      have hv : e = (k, v) := by cases e; cases h; simpa using he
      subst hv
      simp [insertKey]
    · rw [if_neg he] at h
      simp [insertKey, he, ih h]

theorem eraseKey_cons_self {α : Type} (e : String × α) (m : List (String × α))
    (k : String) (he : e.1 = k) : eraseKey (e :: m) k = eraseKey m k := by
  simp [eraseKey, List.filter_cons, he]

theorem eraseKey_cons_ne {α : Type} (e : String × α) (m : List (String × α))
    (k : String) (he : e.1 ≠ k) : eraseKey (e :: m) k = e :: eraseKey m k := by
  simp [eraseKey, List.filter_cons, he]

theorem lookupKey_eraseKey_self {α : Type} (m : List (String × α))
    (k : String) : lookupKey (eraseKey m k) k = none := by
  induction m with
  | nil => simp [eraseKey, lookupKey]
  | cons e m ih =>
    by_cases he : e.1 = k
    · rw [eraseKey_cons_self e m k he]; exact ih
    · rw [eraseKey_cons_ne e m k he, lookupKey_cons, if_neg he]; exact ih

theorem lookupKey_eraseKey_ne {α : Type} (m : List (String × α))
    (k k' : String) (h : k' ≠ k) :
    lookupKey (eraseKey m k) k' = lookupKey m k' := by
  induction m with
  | nil => simp [eraseKey]
  | cons e m ih =>
    by_cases he : e.1 = k
    · have h2 : e.1 ≠ k' := by rw [he]; exact Ne.symm h
      rw [eraseKey_cons_self e m k he, lookupKey_cons, if_neg h2, ih]
    · rw [eraseKey_cons_ne e m k he, lookupKey_cons, lookupKey_cons, ih]

/-! ### Wire values

The {type, data} envelope of the protocol.  data is arbitrary JSON; the
handlers extract string fields with Go type assertions
(`data["k"].(string)`), which fail on a missing key or a value of
another type. -/

/-- A JSON value as decoded from the wire. -/
inductive JValue where
  | null
  | str (s : String)
  | num (n : Int)
  | bool (b : Bool)
  | obj (fields : List (String × JValue))
deriving Repr

/-- The WebSocketMessage envelope: {type, data}. -/
structure WSMessage where
  type : String
  data : JValue
deriving Repr

/-- Go assertion data.(map[string]interface) on the envelope payload. -/
def asObj : JValue → Option (List (String × JValue))
  | .obj fields => some fields
  | _ => none

/-- Go assertion data[k].(string): the ok-form result. -/
def getString (fields : List (String × JValue)) (k : String) : Option String :=
  match lookupKey fields k with
  | some (.str s) => some s
  | _ => none

/-- Go assertion data[k].(string) discarding ok: zero value on failure. -/
def getStringD (fields : List (String × JValue)) (k : String) : String :=
  (getString fields k).getD ""

/-- Go assertion data[k].(map[string]interface) discarding ok. -/
def getObj (fields : List (String × JValue)) (k : String) :
    Option (List (String × JValue)) :=
  match lookupKey fields k with
  | some (.obj fs) => some fs
  | _ => none

/-! ### Outbound messages

The concrete payload maps the handlers build before broadcasting. -/

/-- The payloads constructed by the server handlers. -/
inductive Payload where
  | roomStatePayload (participants : List Participant) (revealed : Bool)
      (story : Option Story) (lastRound : Option LastRound)
  | participantVoted (id : String) (hasVote : Bool)
  | revealedPayload (participants : List Participant)
      (lastRound : Option LastRound)
  | roomReset (participants : List Participant) (story : Option Story)
  | storyUpdated (story : Option Story)
deriving Repr, DecidableEq

/-- One message written to one live connection. -/
structure Send where
  clientId : String
  msgType : String
  payload : Payload
deriving Repr, DecidableEq

/-- The in-memory server state: the room store and the ids of the live
registered connections (the clients map). -/
structure Server where
  rooms : List (String × RoomState)
  clients : List String
deriving Repr, DecidableEq

/-- getParticipantsArray in main.go: copy the participant map values
into an array. -/
def getParticipantsArray (room : RoomState) : List Participant :=
  room.participants.map (·.2)

/-- The freshly initialized room built by getOrCreateRoom. -/
def freshRoom (roomId : String) : RoomState :=
  { id := roomId, participants := [], revealed := false,
    lastRound := none, story := none }

/-! ### The Go WebSocket server (servers/golang/main.go)

Each handler takes the server state, the id of the calling connection
and the decoded data fields, and returns the new server state together
with the sends it performs.  handleReveal also takes the generated round
id (a function of the wall clock in the source). -/

/-- Clearing every vote, the shared loop of reestimate and reset. -/
def clearVotes (participants : List (String × Participant)) :
    List (String × Participant) :=
  participants.map (fun e => (e.1, { e.2 with vote := none }))

namespace GoWS

/-- getOrCreateRoom: return the existing room or insert a fresh one. -/
def getOrCreateRoom (s : Server) (roomId : String) : Server × RoomState :=
  match lookupKey s.rooms roomId with
  | some room => (s, room)
  | none =>
      let room := freshRoom roomId
      ({ s with rooms := insertKey s.rooms roomId room }, room)

/-- broadcastToRoom: iterate the participants of the room, skip the
excluded ids, and write the message to each participant id that is a
registered live connection. -/
def broadcastToRoom (s : Server) (roomId msgType : String)
    (payload : Payload) (excludeId : List String) : List Send :=
  match lookupKey s.rooms roomId with
  | none => []
  | some room =>
      room.participants.filterMap (fun e =>
        if excludeId.contains e.2.id then none
        else if s.clients.contains e.2.id then
          some { clientId := e.2.id, msgType := msgType, payload := payload }
        else none)

/-- broadcastRoomState: full room snapshot to every room member. -/
def broadcastRoomState (s : Server) (roomId : String) : List Send :=
  match lookupKey s.rooms roomId with
  | none => []
  | some room =>
      broadcastToRoom s roomId "room-state"
        (.roomStatePayload (getParticipantsArray room) room.revealed
          room.story room.lastRound) []

/-- The participant-map update of handleJoinRoom: if some participant
has exactly the given name (and a nonempty old key), delete the old
entry and insert a new participant under the caller id carrying the old
vote and paused values; otherwise insert a fresh participant with null
vote. -/
def joinRoomParticipants (participants : List (String × Participant))
    (wsId name : String) : List (String × Participant) :=
  match participants.find? (fun e => e.2.name == name) with
  | some (oldId, p) =>
      if oldId != "" then
        insertKey (eraseKey participants oldId) wsId
          { id := wsId, name := name, vote := p.vote, paused := p.paused }
      else
        insertKey participants wsId
          { id := wsId, name := name, vote := none, paused := false }
  | none =>
      insertKey participants wsId
        { id := wsId, name := name, vote := none, paused := false }

/-- handleJoinRoom: requires a string roomId, creates the room on
demand, upserts the caller as participant and broadcasts the room
state. -/
def handleJoinRoom (s : Server) (ws : String)
    (fields : List (String × JValue)) : Server × List Send :=
  match getString fields "roomId" with
  | none => (s, [])
  | some roomId =>
      let name := getStringD fields "name"
      let sr := getOrCreateRoom s roomId
      let room := sr.2
      let room' := { room with
        participants := joinRoomParticipants room.participants ws name }
      let s' := { sr.1 with rooms := insertKey sr.1.rooms roomId room' }
      (s', broadcastRoomState s' roomId)

/-- The participant-map update of handleVote: set the vote of the
caller when present. -/
def voteParticipants (participants : List (String × Participant))
    (wsId vote : String) : List (String × Participant) :=
  match lookupKey participants wsId with
  | some p => insertKey participants wsId { p with vote := some vote }
  | none => participants

/-- handleVote: set the caller vote and broadcast participant-voted. -/
def handleVote (s : Server) (ws : String)
    (fields : List (String × JValue)) : Server × List Send :=
  let roomId := getStringD fields "roomId"
  let vote := getStringD fields "vote"
  match lookupKey s.rooms roomId with
  | none => (s, [])
  | some room =>
      let room' := { room with
        participants := voteParticipants room.participants ws vote }
      let s' := { s with rooms := insertKey s.rooms roomId room' }
      (s', broadcastToRoom s' roomId "participant-voted"
        (.participantVoted ws (vote != "")) [])

/-- handleReveal: set revealed, snapshot the participants into a new
lastRound and broadcast revealed. -/
def handleReveal (s : Server) (roundId : String)
    (fields : List (String × JValue)) : Server × List Send :=
  let roomId := getStringD fields "roomId"
  match lookupKey s.rooms roomId with
  | none => (s, [])
  | some room =>
      let parts := getParticipantsArray room
      let room' :=
        { room with
          revealed := true
          lastRound := some { id := roundId, participants := parts } }
      let s' := { s with rooms := insertKey s.rooms roomId room' }
      (s', broadcastToRoom s' roomId "revealed"
        (.revealedPayload parts room'.lastRound) [])

/-- handleReestimate: unreveal, clear every vote, broadcast the room
state.  Story and lastRound are not touched. -/
def handleReestimate (s : Server)
    (fields : List (String × JValue)) : Server × List Send :=
  let roomId := getStringD fields "roomId"
  match lookupKey s.rooms roomId with
  | none => (s, [])
  | some room =>
      let room' :=
        { room with
          revealed := false
          participants := clearVotes room.participants }
      let s' := { s with rooms := insertKey s.rooms roomId room' }
      (s', broadcastRoomState s' roomId)

/-- handleReset in main.go: unreveal and clear every vote, then
broadcast room-reset carrying the participants and the story field of
the room.  The Go code does not assign Story or LastRound here. -/
def handleReset (s : Server)
    (fields : List (String × JValue)) : Server × List Send :=
  let roomId := getStringD fields "roomId"
  match lookupKey s.rooms roomId with
  | none => (s, [])
  | some room =>
      let room' :=
        { room with
          revealed := false
          participants := clearVotes room.participants }
      let s' := { s with rooms := insertKey s.rooms roomId room' }
      (s', broadcastToRoom s' roomId "room-reset"
        (.roomReset (getParticipantsArray room') room'.story) [])

/-- handleUpdateStory: replace the story (null when the story field is
not an object) and broadcast story-updated. -/
def handleUpdateStory (s : Server)
    (fields : List (String × JValue)) : Server × List Send :=
  let roomId := getStringD fields "roomId"
  let storyData := getObj fields "story"
  match lookupKey s.rooms roomId with
  | none => (s, [])
  | some room =>
      let story : Option Story :=
        match storyData with
        | some fs =>
            some { title := getStringD fs "title", link := getStringD fs "link" }
        | none => none
      let room' := { room with story := story }
      let s' := { s with rooms := insertKey s.rooms roomId room' }
      (s', broadcastToRoom s' roomId "story-updated"
        (.storyUpdated room'.story) [])

/-- The participant-map update of handleSuspendVoting. -/
def suspendParticipants (participants : List (String × Participant))
    (wsId : String) : List (String × Participant) :=
  match lookupKey participants wsId with
  | some p => insertKey participants wsId { p with paused := true }
  | none => participants

/-- handleSuspendVoting: pause the caller, broadcast the room state. -/
def handleSuspendVoting (s : Server) (ws : String)
    (fields : List (String × JValue)) : Server × List Send :=
  let roomId := getStringD fields "roomId"
  match lookupKey s.rooms roomId with
  | none => (s, [])
  | some room =>
      let room' := { room with
        participants := suspendParticipants room.participants ws }
      let s' := { s with rooms := insertKey s.rooms roomId room' }
      (s', broadcastRoomState s' roomId)

/-- The participant-map update of handleResumeVoting in main.go: unpause
the caller and clear its vote. -/
def resumeParticipants (participants : List (String × Participant))
    (wsId : String) : List (String × Participant) :=
  match lookupKey participants wsId with
  | some p => insertKey participants wsId
      { p with paused := false, vote := none }
  | none => participants

/-- handleResumeVoting: unpause the caller, clear its vote, broadcast
the room state. -/
def handleResumeVoting (s : Server) (ws : String)
    (fields : List (String × JValue)) : Server × List Send :=
  let roomId := getStringD fields "roomId"
  match lookupKey s.rooms roomId with
  | none => (s, [])
  | some room =>
      let room' := { room with
        participants := resumeParticipants room.participants ws }
      let s' := { s with rooms := insertKey s.rooms roomId room' }
      (s', broadcastRoomState s' roomId)

/-- The participant-map update of handleUpdateName. -/
def renameParticipants (participants : List (String × Participant))
    (wsId name : String) : List (String × Participant) :=
  match lookupKey participants wsId with
  | some p => insertKey participants wsId { p with name := name }
  | none => participants

/-- handleUpdateName: rename the caller in place, broadcast the room
state. -/
def handleUpdateName (s : Server) (ws : String)
    (fields : List (String × JValue)) : Server × List Send :=
  let roomId := getStringD fields "roomId"
  let name := getStringD fields "name"
  match lookupKey s.rooms roomId with
  | none => (s, [])
  | some room =>
      let room' := { room with
        participants := renameParticipants room.participants ws name }
      let s' := { s with rooms := insertKey s.rooms roomId room' }
      (s', broadcastRoomState s' roomId)

/-- handleClientDisconnect: remove the connection from the registry.
Participants are intentionally kept in their rooms. -/
def handleClientDisconnect (s : Server) (ws : String) : Server × List Send :=
  ({ s with clients := s.clients.erase ws }, [])

/-- handleMessage: dispatch on the message type; every known type first
asserts that data is an object, and unknown types are ignored.  The
object assertion is hoisted out of the per-case code, which preserves
the semantics because the no-payload outcome is identical in every
case; the Go switch is rendered as an if-chain. -/
def handleMessage (s : Server) (ws : String) (roundId : String)
    (msg : WSMessage) : Server × List Send :=
  match asObj msg.data with
  | none => (s, [])
  | some fields =>
      if msg.type = "join-room" then handleJoinRoom s ws fields
      else if msg.type = "vote" then handleVote s ws fields
      else if msg.type = "reveal" then handleReveal s roundId fields
      else if msg.type = "reestimate" then handleReestimate s fields
      else if msg.type = "reset" then handleReset s fields
      else if msg.type = "update-story" then handleUpdateStory s fields
      else if msg.type = "update-name" then handleUpdateName s ws fields
      else if msg.type = "suspend-voting" then handleSuspendVoting s ws fields
      else if msg.type = "resume-voting" then handleResumeVoting s ws fields
      else (s, [])

end GoWS

/-! ### The Node WebSocket server (servers/node, TypeScript)

The handlers relevant to the claims, translated from the ws-based
server.  handleMessage casts the decoded data to the expected record
type without validation, so the handlers receive their fields directly.
emitToRoom degenerates to broadcastToRoom when no Redis bridge is
configured. -/

namespace NodeWS

/-- broadcastToRoom in the Node server: excludeId is a single optional
id, compared against each participant id. -/
def broadcastToRoom (s : Server) (roomId msgType : String)
    (payload : Payload) (excludeId : Option String) : List Send :=
  match lookupKey s.rooms roomId with
  | none => []
  | some room =>
      room.participants.filterMap (fun e =>
        if some e.2.id == excludeId then none
        else if s.clients.contains e.2.id then
          some { clientId := e.2.id, msgType := msgType, payload := payload }
        else none)

/-- handleReestimate in the Node server: unreveal, clear every vote,
emit the full room state.  Story and lastRound are not touched. -/
def handleReestimate (s : Server) (roomId : String) : Server × List Send :=
  match lookupKey s.rooms roomId with
  | none => (s, [])
  | some room =>
      let room' :=
        { room with
          revealed := false
          participants := clearVotes room.participants }
      let s' := { s with rooms := insertKey s.rooms roomId room' }
      (s', broadcastToRoom s' roomId "room-state"
        (.roomStatePayload (getParticipantsArray room') room'.revealed
          room'.story room'.lastRound) none)

/-- handleReset in the Node server: unreveal, clear every vote, null
lastRound and story, emit room-reset carrying the cleared participants
and the now-null story. -/
def handleReset (s : Server) (roomId : String) : Server × List Send :=
  match lookupKey s.rooms roomId with
  | none => (s, [])
  | some room =>
      let room' :=
        { room with
          revealed := false
          participants := clearVotes room.participants
          lastRound := none
          story := none }
      let s' := { s with rooms := insertKey s.rooms roomId room' }
      (s', broadcastToRoom s' roomId "room-reset"
        (.roomReset (getParticipantsArray room') room'.story) none)

/-- handleResumeVoting in the Node server: unpause the caller when it
is a participant of the room and emit the full room state.  The vote
field of the participant is not assigned. -/
def handleResumeVoting (s : Server) (ws roomId : String) :
    Server × List Send :=
  match lookupKey s.rooms roomId with
  | none => (s, [])
  | some room =>
      match lookupKey room.participants ws with
      | none => (s, [])
      | some p =>
          let room' := { room with
            participants := insertKey room.participants ws
              { p with paused := false } }
          let s' := { s with rooms := insertKey s.rooms roomId room' }
          (s', broadcastToRoom s' roomId "room-state"
            (.roomStatePayload (getParticipantsArray room') room'.revealed
              room'.story room'.lastRound) none)

end NodeWS

/-! ### Concrete fixtures used by scenario theorems and witnesses -/

/-- Alice with a recorded vote of 5. -/
def aliceVoted : Participant :=
  { id := "c1", name := "Alice", vote := some "5", paused := false }

/-- A nonempty story. -/
def sampleStory : Story := { title := "Checkout", link := "https://tracker/PP-1" }

/-- The round snapshot recorded when the sample room was revealed. -/
def sampleRound : LastRound := { id := "r1", participants := [aliceVoted] }

/-- A revealed one-participant room carrying a story and a round. -/
def revealedRoom : RoomState :=
  { id := "R1", participants := [("c1", aliceVoted)], revealed := true,
    lastRound := some sampleRound, story := some sampleStory }

/-- A server hosting the revealed room, with Alice connected. -/
def revealedServer : Server :=
  { rooms := [("R1", revealedRoom)], clients := ["c1"] }

/-- A paused participant with a recorded vote. -/
def pausedVoter : Participant :=
  { id := "c1", name := "Alice", vote := some "5", paused := true }

/-- A room whose only participant is paused mid-vote. -/
def pausedRoom : RoomState :=
  { id := "R1", participants := [("c1", pausedVoter)], revealed := false,
    lastRound := none, story := none }

/-- A server hosting the paused room, with the participant connected. -/
def pausedServer : Server :=
  { rooms := [("R1", pausedRoom)], clients := ["c1"] }

/-- Every entry of clearVotes has a null vote. -/
theorem clearVotes_vote_none (ps : List (String × Participant)) :
    ∀ e ∈ clearVotes ps, e.2.vote = none := by
  intro e he
  simp only [clearVotes, List.mem_map] at he
  obtain ⟨a, _, rfl⟩ := he
  rfl

/-- clearVotes keeps the participant keys. -/
theorem clearVotes_keys (ps : List (String × Participant)) :
    (clearVotes ps).map Prod.fst = ps.map Prod.fst := by
  simp [clearVotes]

/-- Unfolding of the join update in the transfer branch: some existing
participant carries the joining name and its key is nonempty. -/
theorem joinRoomParticipants_found (participants : List (String × Participant))
    (ws name oldId : String) (p : Participant)
    (hfind : participants.find? (fun e => e.2.name == name) = some (oldId, p))
    (hne : oldId ≠ "") :
    GoWS.joinRoomParticipants participants ws name =
      insertKey (eraseKey participants oldId) ws
        { id := ws, name := name, vote := p.vote, paused := p.paused } := by
  simp [GoWS.joinRoomParticipants, hfind, hne]

/-- Unfolding of the join update in the fresh branch: no participant
carries the joining name. -/
theorem joinRoomParticipants_fresh (participants : List (String × Participant))
    (ws name : String)
    (hfind : participants.find? (fun e => e.2.name == name) = none) :
    GoWS.joinRoomParticipants participants ws name =
      insertKey participants ws
        { id := ws, name := name, vote := none, paused := false } := by
  simp [GoWS.joinRoomParticipants, hfind]

/-- The room stored by handleJoinRoom when the room already exists. -/
theorem handleJoinRoom_room (s : Server) (ws roomId : String)
    (room : RoomState) (fields : List (String × JValue))
    (hrid : getString fields "roomId" = some roomId)
    (hroom : lookupKey s.rooms roomId = some room) :
    lookupKey (GoWS.handleJoinRoom s ws fields).1.rooms roomId =
      some { room with participants := GoWS.joinRoomParticipants room.participants ws (getStringD fields "name") } := by
  simp only [GoWS.handleJoinRoom, hrid, GoWS.getOrCreateRoom, hroom]
  exact lookupKey_insertKey_self _ _ _

/-- The server state of spec scenario C just before the reconnect: Bob
joins R1 from connection c1, votes 5, suspends, and disconnects (the
second connection c2 is registered from the start). -/
def scenarioCServer : Server :=
  (GoWS.handleClientDisconnect
    (GoWS.handleSuspendVoting
      (GoWS.handleVote
        (GoWS.handleJoinRoom { rooms := [], clients := ["c1", "c2"] } "c1"
          [("roomId", JValue.str "R1"), ("name", JValue.str "Bob")]).1
        "c1" [("roomId", JValue.str "R1"), ("vote", JValue.str "5")]).1
      "c1" [("roomId", JValue.str "R1")]).1
    "c1").1

/-- Claim C1: joining an existing room deletes the participant whose
name matches exactly (when one exists, keyed by a nonempty id) and
inserts a participant under the caller connection id carrying the old
vote and paused values; otherwise it inserts a fresh participant with a
null vote.  In particular, in scenario C (join, vote 5, suspend,
disconnect, rejoin under a new connection id) the room ends with exactly
one Bob carrying the pre-disconnect vote and paused state. -/
theorem join_room_reconnect_transfer
    (s : Server) (ws roomId name : String) (room : RoomState)
    (fields : List (String × JValue))
    (hrid : getString fields "roomId" = some roomId)
    (hname : getStringD fields "name" = name)
    (hroom : lookupKey s.rooms roomId = some room) :
    ((∀ oldId p,
        room.participants.find? (fun e => e.2.name == name) = some (oldId, p) →
        oldId ≠ "" →
        ∃ room',
          lookupKey (GoWS.handleJoinRoom s ws fields).1.rooms roomId
            = some room'
          ∧ room'.participants =
              insertKey (eraseKey room.participants oldId) ws
                { id := ws, name := name, vote := p.vote, paused := p.paused })
    ∧ (room.participants.find? (fun e => e.2.name == name) = none →
        ∃ room',
          lookupKey (GoWS.handleJoinRoom s ws fields).1.rooms roomId
            = some room'
          ∧ room'.participants =
              insertKey room.participants ws
                { id := ws, name := name, vote := none, paused := false }))
    ∧ lookupKey (GoWS.handleJoinRoom scenarioCServer "c2"
          [("roomId", JValue.str "R1"),
           ("name", JValue.str "Bob")]).1.rooms "R1"
        = some { id := "R1",
                 participants := [("c2", { id := "c2", name := "Bob", vote := some "5", paused := true })],
                 revealed := false, lastRound := none, story := none } := by
  refine ⟨⟨?_, ?_⟩, by decide⟩
  · intro oldId p hfind hne
    exact ⟨_, handleJoinRoom_room s ws roomId room fields hrid hroom, by
      rw [hname, joinRoomParticipants_found room.participants ws name oldId p
        hfind hne]⟩
  · intro hfind
    exact ⟨_, handleJoinRoom_room s ws roomId room fields hrid hroom, by
      rw [hname, joinRoomParticipants_fresh room.participants ws name hfind]⟩

/-- Witness for claim C1: the transfer branch at the sample revealed
server, rejoining as Alice from a new connection c9. -/
theorem join_room_reconnect_transfer_witness :
    ∃ room',
      lookupKey (GoWS.handleJoinRoom revealedServer "c9"
          [("roomId", JValue.str "R1"),
           ("name", JValue.str "Alice")]).1.rooms "R1" = some room'
      ∧ room'.participants =
          insertKey (eraseKey revealedRoom.participants "c1") "c9"
            { id := "c9", name := "Alice", vote := aliceVoted.vote,
              paused := aliceVoted.paused } :=
  (join_room_reconnect_transfer revealedServer "c9" "R1" "Alice" revealedRoom
    [("roomId", JValue.str "R1"), ("name", JValue.str "Alice")]
    (by decide) (by decide) (by decide)).1.1 "c1" aliceVoted
    (by decide) (by decide)

/-- The server after two live connections join R1 with the same name,
with no disconnect in between. -/
def twoJoinServer : Server :=
  (GoWS.handleJoinRoom
    (GoWS.handleJoinRoom { rooms := [], clients := ["c1", "c2"] } "c1"
      [("roomId", JValue.str "R1"), ("name", JValue.str "Bob")]).1
    "c2" [("roomId", JValue.str "R1"), ("name", JValue.str "Bob")]).1

/-- Counterexample to claim C9: after two different live connections
join the same room with the same name, the room holds a single
participant keyed by the second connection id, not two distinct
participants. -/
theorem concurrent_same_name_single_participant :
    (lookupKey twoJoinServer.rooms "R1").map
        (fun room => room.participants.map Prod.fst) = some ["c2"]
  ∧ (lookupKey twoJoinServer.rooms "R1").map
        (fun room => room.participants.length) ≠ some 2 := by
  constructor <;> decide

/-- Amended claim C9: a join whose name matches an existing participant
transfers that identity to the joining connection regardless of whether
the old connection is still live: the old entry is deleted and the room
keeps a single participant with that name, keyed by the new connection
id and carrying the old vote and paused values. -/
theorem same_name_join_transfers_identity
    (s : Server) (c1 c2 roomId name : String) (room : RoomState)
    (p : Participant) (fields : List (String × JValue))
    (hrid : getString fields "roomId" = some roomId)
    (hname : getStringD fields "name" = name)
    (hroom : lookupKey s.rooms roomId = some room)
    (hfind : room.participants.find? (fun e => e.2.name == name)
      = some (c1, p))
    (hc1 : c1 ≠ "")
    (hlive : c1 ∈ s.clients)
    (hne : c2 ≠ c1) :
    ∃ room',
      lookupKey (GoWS.handleJoinRoom s c2 fields).1.rooms roomId = some room'
      ∧ lookupKey room'.participants c2 =
          some { id := c2, name := name, vote := p.vote, paused := p.paused }
      ∧ lookupKey room'.participants c1 = none := by
  refine ⟨_, handleJoinRoom_room s c2 roomId room fields hrid hroom, ?_, ?_⟩
  · rw [hname, joinRoomParticipants_found room.participants c2 name c1 p
      hfind hc1]
    exact lookupKey_insertKey_self _ _ _
  · rw [hname, joinRoomParticipants_found room.participants c2 name c1 p
      hfind hc1]
    rw [lookupKey_insertKey_ne _ _ _ _ hne.symm]
    exact lookupKey_eraseKey_self _ _

/-- Witness for the amended claim C9 at the sample revealed server: the
old connection c1 is still registered while c2 joins as Alice. -/
theorem same_name_join_transfers_identity_witness :
    ∃ room',
      lookupKey (GoWS.handleJoinRoom revealedServer "c2"
          [("roomId", JValue.str "R1"),
           ("name", JValue.str "Alice")]).1.rooms "R1" = some room'
      ∧ lookupKey room'.participants "c2" =
          some { id := "c2", name := "Alice", vote := aliceVoted.vote,
                 paused := aliceVoted.paused }
      ∧ lookupKey room'.participants "c1" = none :=
  same_name_join_transfers_identity revealedServer "c1" "c2" "R1" "Alice"
    revealedRoom aliceVoted
    [("roomId", JValue.str "R1"), ("name", JValue.str "Alice")]
    (by decide) (by decide) (by decide) (by decide) (by decide) (by decide)
    (by decide)

/-- Claim C2: reset is specified to set revealed to false, clear every
vote, null the story and the lastRound, and broadcast room-reset
carrying the participants and the now-null story.  The Node server
(servers/node handleReset) does exactly this, but handleReset in
servers/golang/main.go never assigns Story or LastRound: on the sample
revealed room the Go server keeps both and sends the old story in the
room-reset payload, diverging from the specification, the sibling Node
implementation and the Node test suite. -/
theorem reset_story_lastRound_divergence :
    GoWS.handleReset revealedServer [("roomId", JValue.str "R1")] =
      ({ rooms := [("R1",
          { id := "R1",
            participants := [("c1",
              { id := "c1", name := "Alice", vote := none, paused := false })],
            revealed := false,
            lastRound := some sampleRound,
            story := some sampleStory })],
         clients := ["c1"] },
       [{ clientId := "c1", msgType := "room-reset",
          payload := .roomReset
            [{ id := "c1", name := "Alice", vote := none, paused := false }]
            (some sampleStory) }])
  ∧ NodeWS.handleReset revealedServer "R1" =
      ({ rooms := [("R1",
          { id := "R1",
            participants := [("c1",
              { id := "c1", name := "Alice", vote := none, paused := false })],
            revealed := false,
            lastRound := none,
            story := none })],
         clients := ["c1"] },
       [{ clientId := "c1", msgType := "room-reset",
          payload := .roomReset
            [{ id := "c1", name := "Alice", vote := none, paused := false }]
            none }]) := by
  constructor <;> decide

/-- Claim C3: resume-voting is specified to unpause the caller and also
clear its vote.  handleResumeVoting in servers/golang/main.go does both,
but handleResumeVoting in the Node server only unpauses: on the sample
paused voter the Node server retains the vote 5, diverging from the
specification, the Go implementation and the older socket.io server. -/
theorem resume_vote_clearing_divergence :
    (GoWS.handleResumeVoting pausedServer "c1"
        [("roomId", JValue.str "R1")]).1 =
      { rooms := [("R1",
          { id := "R1",
            participants := [("c1",
              { id := "c1", name := "Alice", vote := none, paused := false })],
            revealed := false, lastRound := none, story := none })],
        clients := ["c1"] }
  ∧ (NodeWS.handleResumeVoting pausedServer "c1" "R1").1 =
      { rooms := [("R1",
          { id := "R1",
            participants := [("c1",
              { id := "c1", name := "Alice", vote := some "5",
                paused := false })],
            revealed := false, lastRound := none, story := none })],
        clients := ["c1"] } := by
  constructor <;> decide

/-- Claim C5: on an existing room, reestimate sets revealed to false and
clears every vote including those of paused participants, while leaving
the story and the lastRound of the room unchanged, in both server
implementations. -/
theorem reestimate_clears_votes_keeps_story_round
    (s : Server) (roomId : String) (room : RoomState)
    (fields : List (String × JValue))
    (hf : getStringD fields "roomId" = roomId)
    (hroom : lookupKey s.rooms roomId = some room) :
    (∃ room',
      lookupKey (GoWS.handleReestimate s fields).1.rooms roomId = some room'
      ∧ room'.revealed = false
      ∧ (∀ e ∈ room'.participants, e.2.vote = none)
      ∧ room'.participants.map Prod.fst = room.participants.map Prod.fst
      ∧ room'.story = room.story
      ∧ room'.lastRound = room.lastRound)
  ∧ (∃ room',
      lookupKey (NodeWS.handleReestimate s roomId).1.rooms roomId = some room'
      ∧ room'.revealed = false
      ∧ (∀ e ∈ room'.participants, e.2.vote = none)
      ∧ room'.participants.map Prod.fst = room.participants.map Prod.fst
      ∧ room'.story = room.story
      ∧ room'.lastRound = room.lastRound) := by
  constructor
  · refine ⟨{ room with revealed := false, participants := clearVotes room.participants },
      ?_, rfl, clearVotes_vote_none room.participants,
      clearVotes_keys room.participants, rfl, rfl⟩
    simp only [GoWS.handleReestimate, hf, hroom]
    exact lookupKey_insertKey_self s.rooms roomId _
  · refine ⟨{ room with revealed := false, participants := clearVotes room.participants },
      ?_, rfl, clearVotes_vote_none room.participants,
      clearVotes_keys room.participants, rfl, rfl⟩
    simp only [NodeWS.handleReestimate, hroom]
    exact lookupKey_insertKey_self s.rooms roomId _

/-- Witness for claim C5 at the sample revealed server. -/
theorem reestimate_clears_votes_keeps_story_round_witness :
    ∃ room',
      lookupKey (GoWS.handleReestimate revealedServer
          [("roomId", JValue.str "R1")]).1.rooms "R1" = some room'
      ∧ room'.revealed = false
      ∧ (∀ e ∈ room'.participants, e.2.vote = none)
      ∧ room'.participants.map Prod.fst
          = revealedRoom.participants.map Prod.fst
      ∧ room'.story = revealedRoom.story
      ∧ room'.lastRound = revealedRoom.lastRound :=
  (reestimate_clears_votes_keeps_story_round revealedServer "R1" revealedRoom
    [("roomId", JValue.str "R1")] (by decide) (by decide)).1

/-- Claim C10: vote, update-name, suspend-voting and resume-voting on
an existing room leave the entire room store unchanged when the caller
connection id is not in the participant map of the room: no participant
is added and none is mutated. -/
theorem uninvolved_caller_ops_preserve_room
    (s : Server) (ws roomId : String) (room : RoomState)
    (fields : List (String × JValue))
    (hf : getStringD fields "roomId" = roomId)
    (hroom : lookupKey s.rooms roomId = some room)
    (hpart : lookupKey room.participants ws = none) :
    (GoWS.handleVote s ws fields).1 = s
    ∧ (GoWS.handleUpdateName s ws fields).1 = s
    ∧ (GoWS.handleSuspendVoting s ws fields).1 = s
    ∧ (GoWS.handleResumeVoting s ws fields).1 = s := by
  refine ⟨?_, ?_, ?_, ?_⟩
  · simp only [GoWS.handleVote, hf, hroom, GoWS.voteParticipants, hpart]
    show { s with rooms := insertKey s.rooms roomId room } = s
    rw [insertKey_self_of_lookup s.rooms roomId room hroom]
  · simp only [GoWS.handleUpdateName, hf, hroom, GoWS.renameParticipants, hpart]
    show { s with rooms := insertKey s.rooms roomId room } = s
    rw [insertKey_self_of_lookup s.rooms roomId room hroom]
  · simp only [GoWS.handleSuspendVoting, hf, hroom, GoWS.suspendParticipants,
      hpart]
    show { s with rooms := insertKey s.rooms roomId room } = s
    rw [insertKey_self_of_lookup s.rooms roomId room hroom]
  · simp only [GoWS.handleResumeVoting, hf, hroom, GoWS.resumeParticipants,
      hpart]
    show { s with rooms := insertKey s.rooms roomId room } = s
    rw [insertKey_self_of_lookup s.rooms roomId room hroom]

/-- Witness for claim C10: a connection id that never joined R1. -/
theorem uninvolved_caller_ops_preserve_room_witness :
    (GoWS.handleVote revealedServer "zz"
        [("roomId", JValue.str "R1")]).1 = revealedServer
    ∧ (GoWS.handleUpdateName revealedServer "zz"
        [("roomId", JValue.str "R1")]).1 = revealedServer
    ∧ (GoWS.handleSuspendVoting revealedServer "zz"
        [("roomId", JValue.str "R1")]).1 = revealedServer
    ∧ (GoWS.handleResumeVoting revealedServer "zz"
        [("roomId", JValue.str "R1")]).1 = revealedServer :=
  uninvolved_caller_ops_preserve_room revealedServer "zz" "R1" revealedRoom
    [("roomId", JValue.str "R1")] (by decide) (by decide) (by decide)

/-! ### Broadcast engine lemmas for claim C4 -/

/-- The per-participant send filter of broadcastToRoom. -/
def sendTo (clients : List String) (t : String) (payload : Payload)
    (excl : List String) (x : String × Participant) : Option Send :=
  if excl.contains x.2.id then none
  else if clients.contains x.2.id then
    some { clientId := x.2.id, msgType := t, payload := payload }
  else none

/-- broadcastToRoom written through sendTo. -/
theorem broadcastToRoom_eq_sendTo (s : Server) (roomId t : String)
    (payload : Payload) (excl : List String) :
    GoWS.broadcastToRoom s roomId t payload excl =
      match lookupKey s.rooms roomId with
      | none => []
      | some room => room.participants.filterMap
          (sendTo s.clients t payload excl) := by
  cases h : lookupKey s.rooms roomId <;>
    simp only [GoWS.broadcastToRoom, h] <;> rfl

/-- Any send produced by the filter goes to a live connection that is a
participant id. -/
theorem sendTo_mem (clients : List String) (t : String) (payload : Payload)
    (excl : List String) (ps : List (String × Participant)) (send : Send)
    (h : send ∈ ps.filterMap (sendTo clients t payload excl)) :
    send.clientId ∈ clients ∧ send.clientId ∈ ps.map (fun x => x.2.id) := by
  rw [List.mem_filterMap] at h
  obtain ⟨x, hx, hsend⟩ := h
  unfold sendTo at hsend
  split at hsend
  · simp at hsend
  · split at hsend
    · next h2 =>
        cases hsend
        exact ⟨by simpa using h2, List.mem_map.mpr ⟨x, hx, rfl⟩⟩
    · simp at hsend

/-- Excluding a single id is the same as filtering it out of the
unrestricted broadcast. -/
theorem sendTo_exclude_filter (clients : List String) (t : String)
    (payload : Payload) (e : String) (ps : List (String × Participant)) :
    ps.filterMap (sendTo clients t payload [e]) =
      (ps.filterMap (sendTo clients t payload [])).filter
        (fun send => send.clientId != e) := by
  induction ps with
  | nil => rfl
  | cons x ps ih =>
    simp only [List.filterMap_cons]
    by_cases hx : x.2.id = e
    · subst hx
      by_cases h2 : x.2.id ∈ clients <;>
        simp [sendTo, h2, List.filter_cons, ih]
    · by_cases h2 : x.2.id ∈ clients <;>
        simp [sendTo, hx, h2, List.filter_cons, ih]

/-- With distinct participant ids, the unrestricted broadcast carries
exactly one send for a live participant id. -/
theorem sendTo_count_one (clients : List String) (t : String)
    (payload : Payload) (e : String) (ps : List (String × Participant))
    (hnodup : (ps.map (fun x => x.2.id)).Nodup)
    (hmem : e ∈ ps.map (fun x => x.2.id))
    (hlive : e ∈ clients) :
    ((ps.filterMap (sendTo clients t payload [])).map
      Send.clientId).count e = 1 := by
  induction ps with
  | nil => simp at hmem
  | cons x ps ih =>
    simp only [List.map_cons, List.nodup_cons] at hnodup
    simp only [List.map_cons, List.mem_cons] at hmem
    simp only [List.filterMap_cons]
    rcases hmem with hmem | hmem
    · subst hmem
      have hzero :
          ((ps.filterMap (sendTo clients t payload [])).map
            Send.clientId).count x.2.id = 0 := by
        rw [List.count_eq_zero]
        intro hc
        rw [List.mem_map] at hc
        obtain ⟨send, hs, hcl⟩ := hc
        have hin := (sendTo_mem clients t payload [] ps send hs).2
        rw [hcl] at hin
        exact hnodup.1 hin
      simp [sendTo, hlive, List.count_cons, hzero]
    · have hx : x.2.id ≠ e := by
        intro hh
        rw [hh] at hnodup
        exact hnodup.1 hmem
      by_cases h2 : x.2.id ∈ clients <;>
        simp [sendTo, h2, List.count_cons, hx, ih hnodup.2 hmem]

/-- Counterexample to claim C4: when the supplied excludeId matches no
participant of the room, no recipient is suppressed at all, refuting
that excludeId always suppresses exactly one recipient. -/
theorem broadcast_exclude_without_match_suppresses_none :
    GoWS.broadcastToRoom revealedServer "R1" "story-updated"
        (.storyUpdated none) ["zz"]
      = GoWS.broadcastToRoom revealedServer "R1" "story-updated"
        (.storyUpdated none) []
  ∧ (GoWS.broadcastToRoom revealedServer "R1" "story-updated"
        (.storyUpdated none) []).length = 1 := by
  constructor <;> decide

/-- Amended claim C4: every send of broadcastToRoom goes to a live
connection whose id is a participant id of the target room (never to a
connection outside the room); excluding an id removes exactly the sends
addressed to it, so exactly one recipient is suppressed when the
excluded id is the id of a live-connected participant (participant ids
being distinct), and none is suppressed otherwise. -/
theorem broadcast_containment_and_exclusion
    (s : Server) (roomId t : String) (payload : Payload) :
    (∀ excl send, send ∈ GoWS.broadcastToRoom s roomId t payload excl →
        send.clientId ∈ s.clients
        ∧ ∃ room, lookupKey s.rooms roomId = some room
            ∧ send.clientId ∈ room.participants.map (fun x => x.2.id))
  ∧ (∀ e, GoWS.broadcastToRoom s roomId t payload [e] =
        (GoWS.broadcastToRoom s roomId t payload []).filter
          (fun send => send.clientId != e))
  ∧ (∀ e room, lookupKey s.rooms roomId = some room →
      (room.participants.map (fun x => x.2.id)).Nodup →
      e ∈ room.participants.map (fun x => x.2.id) →
      e ∈ s.clients →
      ((GoWS.broadcastToRoom s roomId t payload []).map
        Send.clientId).count e = 1) := by
  refine ⟨?_, ?_, ?_⟩
  · intro excl send hmem
    rw [broadcastToRoom_eq_sendTo] at hmem
    cases h : lookupKey s.rooms roomId with
    | none => rw [h] at hmem; simp at hmem
    | some room =>
        rw [h] at hmem
        have hsm := sendTo_mem s.clients t payload excl room.participants
          send hmem
        exact ⟨hsm.1, room, rfl, hsm.2⟩
  · intro e
    rw [broadcastToRoom_eq_sendTo, broadcastToRoom_eq_sendTo]
    cases h : lookupKey s.rooms roomId with
    | none => rfl
    | some room =>
        exact sendTo_exclude_filter s.clients t payload e room.participants
  · intro e room hroom hnodup hmem hlive
    rw [broadcastToRoom_eq_sendTo, hroom]
    exact sendTo_count_one s.clients t payload e room.participants
      hnodup hmem hlive

/-- Witness for the amended claim C4 at the sample revealed server. -/
theorem broadcast_containment_and_exclusion_witness :
    GoWS.broadcastToRoom revealedServer "R1" "story-updated"
        (.storyUpdated none) ["c1"] =
      (GoWS.broadcastToRoom revealedServer "R1" "story-updated"
        (.storyUpdated none) []).filter (fun send => send.clientId != "c1")
  ∧ ((GoWS.broadcastToRoom revealedServer "R1" "story-updated"
        (.storyUpdated none) []).map Send.clientId).count "c1" = 1 :=
  ⟨(broadcast_containment_and_exclusion revealedServer "R1" "story-updated"
      (.storyUpdated none)).2.1 "c1",
   (broadcast_containment_and_exclusion revealedServer "R1" "story-updated"
      (.storyUpdated none)).2.2 "c1" revealedRoom (by decide) (by decide)
      (by decide) (by decide)⟩

/-! ### Protocol events and reachability -/

/-- One external event handled by the Go server: an inbound message
from a connection (carrying the round id the clock would generate for a
reveal) or a disconnect. -/
inductive Event where
  | msg (ws : String) (roundId : String) (m : WSMessage)
  | disconnect (ws : String)

/-- The state transition of one event. -/
def stepEvent (s : Server) (ev : Event) : Server :=
  match ev with
  | .msg ws roundId m => (GoWS.handleMessage s ws roundId m).1
  | .disconnect ws => (GoWS.handleClientDisconnect s ws).1

/-- Applying a sequence of events in order. -/
def runEvents (s : Server) (evs : List Event) : Server :=
  evs.foldl stepEvent s

/-- The message types the dispatcher recognizes. -/
def knownTypes : List String :=
  ["join-room", "vote", "reveal", "reestimate", "reset", "update-story",
   "update-name", "suspend-voting", "resume-voting"]

/-! Dispatch equations for handleMessage. -/

theorem handleMessage_notObj (s : Server) (ws roundId : String)
    (m : WSMessage) (h : asObj m.data = none) :
    GoWS.handleMessage s ws roundId m = (s, []) := by
  unfold GoWS.handleMessage
  rw [h]

theorem handleMessage_unknown (s : Server) (ws roundId : String)
    (m : WSMessage) (h : m.type ∉ knownTypes) :
    GoWS.handleMessage s ws roundId m = (s, []) := by
  unfold GoWS.handleMessage
  cases hobj : asObj m.data with
  | none => rfl
  | some fields =>
      simp only [knownTypes, List.mem_cons, List.not_mem_nil, or_false,
        not_or] at h
      obtain ⟨h1, h2, h3, h4, h5, h6, h7, h8, h9⟩ := h
      simp [h1, h2, h3, h4, h5, h6, h7, h8, h9]

theorem handleMessage_joinRoom (s : Server) (ws roundId : String)
    (m : WSMessage) (fields : List (String × JValue))
    (hobj : asObj m.data = some fields) (ht : m.type = "join-room") :
    GoWS.handleMessage s ws roundId m = GoWS.handleJoinRoom s ws fields := by
  unfold GoWS.handleMessage
  rw [hobj, ht]
  rfl

theorem handleMessage_vote (s : Server) (ws roundId : String)
    (m : WSMessage) (fields : List (String × JValue))
    (hobj : asObj m.data = some fields) (ht : m.type = "vote") :
    GoWS.handleMessage s ws roundId m = GoWS.handleVote s ws fields := by
  unfold GoWS.handleMessage
  rw [hobj, ht]
  rfl

theorem handleMessage_reveal (s : Server) (ws roundId : String)
    (m : WSMessage) (fields : List (String × JValue))
    (hobj : asObj m.data = some fields) (ht : m.type = "reveal") :
    GoWS.handleMessage s ws roundId m = GoWS.handleReveal s roundId fields := by
  unfold GoWS.handleMessage
  rw [hobj, ht]
  rfl

theorem handleMessage_reestimate (s : Server) (ws roundId : String)
    (m : WSMessage) (fields : List (String × JValue))
    (hobj : asObj m.data = some fields) (ht : m.type = "reestimate") :
    GoWS.handleMessage s ws roundId m = GoWS.handleReestimate s fields := by
  unfold GoWS.handleMessage
  rw [hobj, ht]
  rfl

theorem handleMessage_reset (s : Server) (ws roundId : String)
    (m : WSMessage) (fields : List (String × JValue))
    (hobj : asObj m.data = some fields) (ht : m.type = "reset") :
    GoWS.handleMessage s ws roundId m = GoWS.handleReset s fields := by
  unfold GoWS.handleMessage
  rw [hobj, ht]
  rfl

theorem handleMessage_updateStory (s : Server) (ws roundId : String)
    (m : WSMessage) (fields : List (String × JValue))
    (hobj : asObj m.data = some fields) (ht : m.type = "update-story") :
    GoWS.handleMessage s ws roundId m = GoWS.handleUpdateStory s fields := by
  unfold GoWS.handleMessage
  rw [hobj, ht]
  rfl

theorem handleMessage_updateName (s : Server) (ws roundId : String)
    (m : WSMessage) (fields : List (String × JValue))
    (hobj : asObj m.data = some fields) (ht : m.type = "update-name") :
    GoWS.handleMessage s ws roundId m = GoWS.handleUpdateName s ws fields := by
  unfold GoWS.handleMessage
  rw [hobj, ht]
  rfl

theorem handleMessage_suspend (s : Server) (ws roundId : String)
    (m : WSMessage) (fields : List (String × JValue))
    (hobj : asObj m.data = some fields) (ht : m.type = "suspend-voting") :
    GoWS.handleMessage s ws roundId m = GoWS.handleSuspendVoting s ws fields := by
  unfold GoWS.handleMessage
  rw [hobj, ht]
  rfl

theorem handleMessage_resume (s : Server) (ws roundId : String)
    (m : WSMessage) (fields : List (String × JValue))
    (hobj : asObj m.data = some fields) (ht : m.type = "resume-voting") :
    GoWS.handleMessage s ws roundId m = GoWS.handleResumeVoting s ws fields := by
  unfold GoWS.handleMessage
  rw [hobj, ht]
  rfl

/-! ### The revealed-implies-lastRound invariant (claim C7) -/

/-- The data-model invariant: a revealed room carries a round. -/
def roomInvariant (room : RoomState) : Prop :=
  room.revealed = true → room.lastRound ≠ none

/-- The invariant over a whole room store. -/
def roomsInvariant (rooms : List (String × RoomState)) : Prop :=
  ∀ roomId room, lookupKey rooms roomId = some room → roomInvariant room

theorem roomsInvariant_insert (rooms : List (String × RoomState))
    (roomId : String) (room' : RoomState)
    (hs : roomsInvariant rooms) (h : roomInvariant room') :
    roomsInvariant (insertKey rooms roomId room') := by
  intro rid r hr
  by_cases hrid : rid = roomId
  · subst hrid
    rw [lookupKey_insertKey_self] at hr
    cases hr
    exact h
  · rw [lookupKey_insertKey_ne _ _ _ _ hrid] at hr
    exact hs rid r hr

theorem roomInvariant_freshRoom (roomId : String) :
    roomInvariant (freshRoom roomId) := by
  intro h
  simp [freshRoom] at h

theorem handleJoinRoom_inv (s : Server) (ws : String)
    (fields : List (String × JValue)) (hs : roomsInvariant s.rooms) :
    roomsInvariant (GoWS.handleJoinRoom s ws fields).1.rooms := by
  simp only [GoWS.handleJoinRoom]
  cases hr : getString fields "roomId" with
  | none => exact hs
  | some roomId =>
      simp only [GoWS.getOrCreateRoom]
      cases hl : lookupKey s.rooms roomId with
      | none =>
          apply roomsInvariant_insert
          · exact roomsInvariant_insert _ _ _ hs (roomInvariant_freshRoom _)
          · exact roomInvariant_freshRoom roomId
      | some room =>
          exact roomsInvariant_insert _ _ _ hs (hs roomId room hl)

theorem handleVote_inv (s : Server) (ws : String)
    (fields : List (String × JValue)) (hs : roomsInvariant s.rooms) :
    roomsInvariant (GoWS.handleVote s ws fields).1.rooms := by
  simp only [GoWS.handleVote]
  cases hl : lookupKey s.rooms (getStringD fields "roomId") with
  | none => exact hs
  | some room => exact roomsInvariant_insert _ _ _ hs (hs _ room hl)

theorem handleReveal_inv (s : Server) (roundId : String)
    (fields : List (String × JValue)) (hs : roomsInvariant s.rooms) :
    roomsInvariant (GoWS.handleReveal s roundId fields).1.rooms := by
  simp only [GoWS.handleReveal]
  cases hl : lookupKey s.rooms (getStringD fields "roomId") with
  | none => exact hs
  | some room =>
      apply roomsInvariant_insert _ _ _ hs
      intro _
      simp

theorem handleReestimate_inv (s : Server)
    (fields : List (String × JValue)) (hs : roomsInvariant s.rooms) :
    roomsInvariant (GoWS.handleReestimate s fields).1.rooms := by
  simp only [GoWS.handleReestimate]
  cases hl : lookupKey s.rooms (getStringD fields "roomId") with
  | none => exact hs
  | some room =>
      apply roomsInvariant_insert _ _ _ hs
      intro h
      simp at h

theorem handleReset_inv (s : Server)
    (fields : List (String × JValue)) (hs : roomsInvariant s.rooms) :
    roomsInvariant (GoWS.handleReset s fields).1.rooms := by
  simp only [GoWS.handleReset]
  cases hl : lookupKey s.rooms (getStringD fields "roomId") with
  | none => exact hs
  | some room =>
      apply roomsInvariant_insert _ _ _ hs
      intro h
      simp at h

theorem handleUpdateStory_inv (s : Server)
    (fields : List (String × JValue)) (hs : roomsInvariant s.rooms) :
    roomsInvariant (GoWS.handleUpdateStory s fields).1.rooms := by
  simp only [GoWS.handleUpdateStory]
  cases hl : lookupKey s.rooms (getStringD fields "roomId") with
  | none => exact hs
  | some room => exact roomsInvariant_insert _ _ _ hs (hs _ room hl)

theorem handleUpdateName_inv (s : Server) (ws : String)
    (fields : List (String × JValue)) (hs : roomsInvariant s.rooms) :
    roomsInvariant (GoWS.handleUpdateName s ws fields).1.rooms := by
  simp only [GoWS.handleUpdateName]
  cases hl : lookupKey s.rooms (getStringD fields "roomId") with
  | none => exact hs
  | some room => exact roomsInvariant_insert _ _ _ hs (hs _ room hl)

theorem handleSuspendVoting_inv (s : Server) (ws : String)
    (fields : List (String × JValue)) (hs : roomsInvariant s.rooms) :
    roomsInvariant (GoWS.handleSuspendVoting s ws fields).1.rooms := by
  simp only [GoWS.handleSuspendVoting]
  cases hl : lookupKey s.rooms (getStringD fields "roomId") with
  | none => exact hs
  | some room => exact roomsInvariant_insert _ _ _ hs (hs _ room hl)

theorem handleResumeVoting_inv (s : Server) (ws : String)
    (fields : List (String × JValue)) (hs : roomsInvariant s.rooms) :
    roomsInvariant (GoWS.handleResumeVoting s ws fields).1.rooms := by
  simp only [GoWS.handleResumeVoting]
  cases hl : lookupKey s.rooms (getStringD fields "roomId") with
  | none => exact hs
  | some room => exact roomsInvariant_insert _ _ _ hs (hs _ room hl)

theorem stepEvent_inv (s : Server) (ev : Event)
    (hs : roomsInvariant s.rooms) :
    roomsInvariant (stepEvent s ev).rooms := by
  cases ev with
  | disconnect ws => exact hs
  | msg ws roundId m =>
      show roomsInvariant (GoWS.handleMessage s ws roundId m).1.rooms
      cases hobj : asObj m.data with
      | none =>
          rw [handleMessage_notObj s ws roundId m hobj]
          exact hs
      | some fields =>
          by_cases hk : m.type ∈ knownTypes
          · simp only [knownTypes, List.mem_cons, List.not_mem_nil,
              or_false] at hk
            rcases hk with ht | ht | ht | ht | ht | ht | ht | ht | ht
            · rw [handleMessage_joinRoom s ws roundId m fields hobj ht]
              exact handleJoinRoom_inv s ws fields hs
            · rw [handleMessage_vote s ws roundId m fields hobj ht]
              exact handleVote_inv s ws fields hs
            · rw [handleMessage_reveal s ws roundId m fields hobj ht]
              exact handleReveal_inv s roundId fields hs
            · rw [handleMessage_reestimate s ws roundId m fields hobj ht]
              exact handleReestimate_inv s fields hs
            · rw [handleMessage_reset s ws roundId m fields hobj ht]
              exact handleReset_inv s fields hs
            · rw [handleMessage_updateStory s ws roundId m fields hobj ht]
              exact handleUpdateStory_inv s fields hs
            · rw [handleMessage_updateName s ws roundId m fields hobj ht]
              exact handleUpdateName_inv s ws fields hs
            · rw [handleMessage_suspend s ws roundId m fields hobj ht]
              exact handleSuspendVoting_inv s ws fields hs
            · rw [handleMessage_resume s ws roundId m fields hobj ht]
              exact handleResumeVoting_inv s ws fields hs
          · rw [handleMessage_unknown s ws roundId m hk]
            exact hs

theorem runEvents_inv (evs : List Event) :
    ∀ s : Server, roomsInvariant s.rooms →
      roomsInvariant (runEvents s evs).rooms := by
  induction evs with
  | nil => intro s hs; exact hs
  | cons ev evs ih =>
      intro s hs
      exact ih (stepEvent s ev) (stepEvent_inv s ev hs)

/-- Claim C7: in every server state reachable from an empty room store
by any sequence of protocol messages and disconnects, a room with
revealed set to true has a non-null lastRound. -/
theorem revealed_implies_lastRound (cs : List String) (evs : List Event)
    (roomId : String) (room : RoomState)
    (hroom : lookupKey (runEvents { rooms := [], clients := cs } evs).rooms
      roomId = some room)
    (hrev : room.revealed = true) : room.lastRound ≠ none := by
  have hinv : roomsInvariant
      (runEvents { rooms := [], clients := cs } evs).rooms := by
    apply runEvents_inv
    intro rid r hr
    simp [lookupKey] at hr
  exact hinv roomId room hroom hrev

/-- The join and reveal messages of the claim C7 witness scenario. -/
def joinBobMsg : WSMessage :=
  { type := "join-room",
    data := JValue.obj [("roomId", JValue.str "R1"),
                        ("name", JValue.str "Bob")] }

/-- The reveal message of the claim C7 witness scenario. -/
def revealMsg : WSMessage :=
  { type := "reveal", data := JValue.obj [("roomId", JValue.str "R1")] }

/-- Bob joins R1 and reveals. -/
def bobEvents : List Event :=
  [Event.msg "c1" "r0" joinBobMsg, Event.msg "c1" "r1" revealMsg]

/-- The round snapshot recorded by the reveal of bobEvents. -/
def bobSnapshot : LastRound :=
  { id := "r1",
    participants := [{ id := "c1", name := "Bob", vote := none, paused := false }] }

/-- The room reached by bobEvents. -/
def bobRevealedRoom : RoomState :=
  { id := "R1",
    participants := [("c1", { id := "c1", name := "Bob", vote := none, paused := false })],
    revealed := true,
    lastRound := some bobSnapshot,
    story := none }

/-- Witness for claim C7: Bob joins R1 and reveals; the reached room is
revealed and indeed carries a round. -/
theorem revealed_implies_lastRound_witness :
    lookupKey (runEvents { rooms := [], clients := ["c1"] }
        bobEvents).rooms "R1" = some bobRevealedRoom
  ∧ bobRevealedRoom.revealed = true
  ∧ bobRevealedRoom.lastRound ≠ none :=
  ⟨by decide, by decide,
   revealed_implies_lastRound ["c1"] bobEvents "R1" bobRevealedRoom
     (by decide) (by decide)⟩

/-! ### Snapshot immutability (claim C6) -/

/-- The message types that mutate live room data without writing the
lastRound field (in the Go server reset also leaves lastRound intact). -/
def mutatorTypes : List String :=
  ["vote", "update-name", "suspend-voting", "resume-voting", "reestimate",
   "reset"]

/-- Events restricted to the mutating messages; disconnects are allowed
since they never touch the room store. -/
def mutatorEvent : Event → Prop
  | .msg _ _ m => m.type ∈ mutatorTypes
  | .disconnect _ => True

theorem lookup_insert_lastRound (rooms : List (String × RoomState))
    (target : String) (r r' : RoomState) (roomId : String) (room : RoomState)
    (hl : lookupKey rooms target = some r)
    (hpres : r'.lastRound = r.lastRound)
    (hroom : lookupKey rooms roomId = some room) :
    ∃ room', lookupKey (insertKey rooms target r') roomId = some room'
      ∧ room'.lastRound = room.lastRound := by
  by_cases h : roomId = target
  · subst h
    rw [hroom] at hl
    cases hl
    exact ⟨r', lookupKey_insertKey_self _ _ _, hpres⟩
  · refine ⟨room, ?_, rfl⟩
    rw [lookupKey_insertKey_ne _ _ _ _ h]
    exact hroom

theorem handleVote_lastRound (s : Server) (ws : String)
    (fields : List (String × JValue)) (roomId : String) (room : RoomState)
    (hroom : lookupKey s.rooms roomId = some room) :
    ∃ room', lookupKey (GoWS.handleVote s ws fields).1.rooms roomId
      = some room' ∧ room'.lastRound = room.lastRound := by
  simp only [GoWS.handleVote]
  cases hl : lookupKey s.rooms (getStringD fields "roomId") with
  | none => exact ⟨room, hroom, rfl⟩
  | some r =>
      exact lookup_insert_lastRound s.rooms _ r _ roomId room hl rfl hroom

theorem handleUpdateName_lastRound (s : Server) (ws : String)
    (fields : List (String × JValue)) (roomId : String) (room : RoomState)
    (hroom : lookupKey s.rooms roomId = some room) :
    ∃ room', lookupKey (GoWS.handleUpdateName s ws fields).1.rooms roomId
      = some room' ∧ room'.lastRound = room.lastRound := by
  simp only [GoWS.handleUpdateName]
  cases hl : lookupKey s.rooms (getStringD fields "roomId") with
  | none => exact ⟨room, hroom, rfl⟩
  | some r =>
      exact lookup_insert_lastRound s.rooms _ r _ roomId room hl rfl hroom

theorem handleSuspendVoting_lastRound (s : Server) (ws : String)
    (fields : List (String × JValue)) (roomId : String) (room : RoomState)
    (hroom : lookupKey s.rooms roomId = some room) :
    ∃ room', lookupKey (GoWS.handleSuspendVoting s ws fields).1.rooms roomId
      = some room' ∧ room'.lastRound = room.lastRound := by
  simp only [GoWS.handleSuspendVoting]
  cases hl : lookupKey s.rooms (getStringD fields "roomId") with
  | none => exact ⟨room, hroom, rfl⟩
  | some r =>
      exact lookup_insert_lastRound s.rooms _ r _ roomId room hl rfl hroom

theorem handleResumeVoting_lastRound (s : Server) (ws : String)
    (fields : List (String × JValue)) (roomId : String) (room : RoomState)
    (hroom : lookupKey s.rooms roomId = some room) :
    ∃ room', lookupKey (GoWS.handleResumeVoting s ws fields).1.rooms roomId
      = some room' ∧ room'.lastRound = room.lastRound := by
  simp only [GoWS.handleResumeVoting]
  cases hl : lookupKey s.rooms (getStringD fields "roomId") with
  | none => exact ⟨room, hroom, rfl⟩
  | some r =>
      exact lookup_insert_lastRound s.rooms _ r _ roomId room hl rfl hroom

theorem handleReestimate_lastRound (s : Server)
    (fields : List (String × JValue)) (roomId : String) (room : RoomState)
    (hroom : lookupKey s.rooms roomId = some room) :
    ∃ room', lookupKey (GoWS.handleReestimate s fields).1.rooms roomId
      = some room' ∧ room'.lastRound = room.lastRound := by
  simp only [GoWS.handleReestimate]
  cases hl : lookupKey s.rooms (getStringD fields "roomId") with
  | none => exact ⟨room, hroom, rfl⟩
  | some r =>
      exact lookup_insert_lastRound s.rooms _ r _ roomId room hl rfl hroom

theorem handleReset_lastRound (s : Server)
    (fields : List (String × JValue)) (roomId : String) (room : RoomState)
    (hroom : lookupKey s.rooms roomId = some room) :
    ∃ room', lookupKey (GoWS.handleReset s fields).1.rooms roomId
      = some room' ∧ room'.lastRound = room.lastRound := by
  simp only [GoWS.handleReset]
  cases hl : lookupKey s.rooms (getStringD fields "roomId") with
  | none => exact ⟨room, hroom, rfl⟩
  | some r =>
      exact lookup_insert_lastRound s.rooms _ r _ roomId room hl rfl hroom

theorem stepEvent_lastRound (s : Server) (ev : Event) (roomId : String)
    (room : RoomState) (hev : mutatorEvent ev)
    (hroom : lookupKey s.rooms roomId = some room) :
    ∃ room', lookupKey (stepEvent s ev).rooms roomId = some room'
      ∧ room'.lastRound = room.lastRound := by
  cases ev with
  | disconnect ws => exact ⟨room, hroom, rfl⟩
  | msg ws roundId m =>
      show ∃ room',
        lookupKey (GoWS.handleMessage s ws roundId m).1.rooms roomId
          = some room' ∧ room'.lastRound = room.lastRound
      cases hobj : asObj m.data with
      | none =>
          rw [handleMessage_notObj s ws roundId m hobj]
          exact ⟨room, hroom, rfl⟩
      | some fields =>
          simp only [mutatorEvent, mutatorTypes, List.mem_cons,
            List.not_mem_nil, or_false] at hev
          rcases hev with ht | ht | ht | ht | ht | ht
          · rw [handleMessage_vote s ws roundId m fields hobj ht]
            exact handleVote_lastRound s ws fields roomId room hroom
          · rw [handleMessage_updateName s ws roundId m fields hobj ht]
            exact handleUpdateName_lastRound s ws fields roomId room hroom
          · rw [handleMessage_suspend s ws roundId m fields hobj ht]
            exact handleSuspendVoting_lastRound s ws fields roomId room hroom
          · rw [handleMessage_resume s ws roundId m fields hobj ht]
            exact handleResumeVoting_lastRound s ws fields roomId room hroom
          · rw [handleMessage_reestimate s ws roundId m fields hobj ht]
            exact handleReestimate_lastRound s fields roomId room hroom
          · rw [handleMessage_reset s ws roundId m fields hobj ht]
            exact handleReset_lastRound s fields roomId room hroom

theorem runEvents_lastRound (evs : List Event) :
    (∀ ev ∈ evs, mutatorEvent ev) →
    ∀ (s : Server) (roomId : String) (room : RoomState),
      lookupKey s.rooms roomId = some room →
      ∃ room', lookupKey (runEvents s evs).rooms roomId = some room'
        ∧ room'.lastRound = room.lastRound := by
  induction evs with
  | nil =>
      intro _ s roomId room hroom
      exact ⟨room, hroom, rfl⟩
  | cons ev evs ih =>
      intro hall s roomId room hroom
      obtain ⟨room1, h1, h2⟩ :=
        stepEvent_lastRound s ev roomId room (hall ev (by simp)) hroom
      obtain ⟨room2, h3, h4⟩ :=
        ih (fun e he => hall e (by simp [he])) (stepEvent s ev) roomId room1 h1
      exact ⟨room2, h3, by rw [h4, h2]⟩

/-- Claim C6: the lastRound snapshot created by reveal is an
independent copy of the participants at reveal time: any later sequence
of vote, update-name, suspend-voting, resume-voting, reestimate or
reset messages (and disconnects) leaves the room storing exactly the
snapshot taken at reveal time, entries and vote values included. -/
theorem lastRound_snapshot_immutable (s : Server) (roundId roomId : String)
    (room : RoomState) (fields : List (String × JValue)) (evs : List Event)
    (hf : getStringD fields "roomId" = roomId)
    (hroom : lookupKey s.rooms roomId = some room)
    (hevs : ∀ ev ∈ evs, mutatorEvent ev) :
    ∃ room',
      lookupKey (runEvents (GoWS.handleReveal s roundId fields).1
        evs).rooms roomId = some room'
      ∧ room'.lastRound
          = some { id := roundId, participants := getParticipantsArray room } := by
  have h1 : lookupKey (GoWS.handleReveal s roundId fields).1.rooms roomId
      = some { room with revealed := true, lastRound := some { id := roundId, participants := getParticipantsArray room } } := by
    simp only [GoWS.handleReveal, hf, hroom]
    exact lookupKey_insertKey_self _ _ _
  obtain ⟨room', h2, h3⟩ := runEvents_lastRound evs hevs _ roomId _ h1
  exact ⟨room', h2, by rw [h3]⟩

/-- A vote overwrite message used in the claim C6 witness. -/
def overwriteVoteMsg : WSMessage :=
  { type := "vote",
    data := JValue.obj [("roomId", JValue.str "R1"),
                        ("vote", JValue.str "8")] }

/-- A reestimate message used in the claim C6 witness. -/
def reestimateMsg : WSMessage :=
  { type := "reestimate", data := JValue.obj [("roomId", JValue.str "R1")] }

/-- A vote overwrite followed by a reestimate. -/
def mutatorDemoEvents : List Event :=
  [Event.msg "c1" "x1" overwriteVoteMsg, Event.msg "c1" "x2" reestimateMsg]

/-- Witness for claim C6: revealing the paused-voter room and then
overwriting the vote and reestimating leaves the reveal-time snapshot
stored unchanged. -/
theorem lastRound_snapshot_immutable_witness :
    ∃ room',
      lookupKey (runEvents (GoWS.handleReveal pausedServer "r9"
          [("roomId", JValue.str "R1")]).1 mutatorDemoEvents).rooms "R1"
        = some room'
      ∧ room'.lastRound
          = some { id := "r9", participants := getParticipantsArray pausedRoom } :=
  lastRound_snapshot_immutable pausedServer "r9" "R1" pausedRoom
    [("roomId", JValue.str "R1")] mutatorDemoEvents (by decide) (by decide)
    (by
      intro ev he
      simp only [mutatorDemoEvents, List.mem_cons, List.not_mem_nil,
        or_false] at he
      rcases he with rfl | rfl
      · simp [mutatorEvent, overwriteVoteMsg, mutatorTypes]
      · simp [mutatorEvent, reestimateMsg, mutatorTypes])

/-! ### Malformed and unknown messages (claim C8) -/

/-- Amended claim C8: an unknown message type, a payload that is not an
object, a known non-join message whose string-coerced roomId names no
existing room, and a join-room whose roomId field is not a string are
all silent no-ops: the server state is unchanged and nothing is sent.
A well-typed roomId naming an existing room is however processed even
when other required fields are missing or mistyped: those are coerced
to Go zero values, which can mutate state and trigger a broadcast. -/
theorem malformed_or_unknown_message_noop (s : Server)
    (ws roundId : String) (m : WSMessage) :
    (m.type ∉ knownTypes → GoWS.handleMessage s ws roundId m = (s, []))
  ∧ (asObj m.data = none → GoWS.handleMessage s ws roundId m = (s, []))
  ∧ (∀ fields, asObj m.data = some fields → m.type ∈ knownTypes →
      m.type ≠ "join-room" →
      lookupKey s.rooms (getStringD fields "roomId") = none →
      GoWS.handleMessage s ws roundId m = (s, []))
  ∧ (∀ fields, asObj m.data = some fields → m.type = "join-room" →
      getString fields "roomId" = none →
      GoWS.handleMessage s ws roundId m = (s, [])) := by
  refine ⟨handleMessage_unknown s ws roundId m,
    handleMessage_notObj s ws roundId m, ?_, ?_⟩
  · intro fields hobj hk hjoin hl
    simp only [knownTypes, List.mem_cons, List.not_mem_nil, or_false] at hk
    rcases hk with ht | ht | ht | ht | ht | ht | ht | ht | ht
    · exact absurd ht hjoin
    · rw [handleMessage_vote s ws roundId m fields hobj ht]
      simp [GoWS.handleVote, hl]
    · rw [handleMessage_reveal s ws roundId m fields hobj ht]
      simp [GoWS.handleReveal, hl]
    · rw [handleMessage_reestimate s ws roundId m fields hobj ht]
      simp [GoWS.handleReestimate, hl]
    · rw [handleMessage_reset s ws roundId m fields hobj ht]
      simp [GoWS.handleReset, hl]
    · rw [handleMessage_updateStory s ws roundId m fields hobj ht]
      simp [GoWS.handleUpdateStory, hl]
    · rw [handleMessage_updateName s ws roundId m fields hobj ht]
      simp [GoWS.handleUpdateName, hl]
    · rw [handleMessage_suspend s ws roundId m fields hobj ht]
      simp [GoWS.handleSuspendVoting, hl]
    · rw [handleMessage_resume s ws roundId m fields hobj ht]
      simp [GoWS.handleResumeVoting, hl]
  · intro fields hobj ht hrid
    rw [handleMessage_joinRoom s ws roundId m fields hobj ht]
    simp [GoWS.handleJoinRoom, hrid]

/-- Witness for the amended claim C8: an unknown type and a vote for a
nonexistent room are both silent no-ops on the sample server. -/
theorem malformed_or_unknown_message_noop_witness :
    GoWS.handleMessage revealedServer "c1" "r0"
        { type := "nonsense", data := JValue.obj [] }
      = (revealedServer, [])
  ∧ GoWS.handleMessage revealedServer "c1" "r0"
        { type := "vote", data := JValue.obj [("roomId", JValue.str "NOPE")] }
      = (revealedServer, []) :=
  ⟨(malformed_or_unknown_message_noop revealedServer "c1" "r0"
      { type := "nonsense", data := JValue.obj [] }).1 (by decide),
   (malformed_or_unknown_message_noop revealedServer "c1" "r0"
      { type := "vote",
        data := JValue.obj [("roomId", JValue.str "NOPE")] }).2.2.1
     [("roomId", JValue.str "NOPE")] rfl (by decide) (by decide) (by decide)⟩

/-- A room whose only participant has not voted, and its server. -/
def votelessRoom : RoomState :=
  { id := "R1",
    participants := [("c1", { id := "c1", name := "Alice", vote := none, paused := false })],
    revealed := false, lastRound := none, story := none }

/-- The server hosting votelessRoom with the participant connected. -/
def votelessServer : Server :=
  { rooms := [("R1", votelessRoom)], clients := ["c1"] }

/-- Counterexample to claim C8: a vote message with a well-typed roomId
but a missing vote field is a malformed payload per the claim, yet the
handler is not a no-op: the missing field is coerced to the empty
string, the caller vote becomes the empty string, and a
participant-voted message is broadcast. -/
theorem malformed_vote_payload_processed :
    GoWS.handleMessage votelessServer "c1" "r0"
        { type := "vote", data := JValue.obj [("roomId", JValue.str "R1")] }
      = ({ rooms := [("R1", { id := "R1", participants := [("c1", { id := "c1", name := "Alice", vote := some "", paused := false })], revealed := false, lastRound := none, story := none })], clients := ["c1"] },
         [{ clientId := "c1", msgType := "participant-voted",
            payload := .participantVoted "c1" false }])
  ∧ (GoWS.handleMessage votelessServer "c1" "r0"
        { type := "vote",
          data := JValue.obj [("roomId", JValue.str "R1")] }).1
      ≠ votelessServer
  ∧ (GoWS.handleMessage votelessServer "c1" "r0"
        { type := "vote",
          data := JValue.obj [("roomId", JValue.str "R1")] }).2
      ≠ [] := by
  refine ⟨by decide, by decide, by decide⟩

end PlanningPoker
